import Mathlib

/-!
Verification development for the device access manager of
`src/slave/containerizer/device_manager/device_manager.cpp`.

The entry value types and their predicates (`has_wildcard`, `encompasses`,
`Access::none`) live in `linux/cgroups2.{hpp,cpp}`, which is not part of the
sources under verification; they are modelled from the specification,
sections 3.1 to 3.4.  Everything else (`convert_to_entries`, `apply_diff`,
`DeviceManagerProcess::configure` / `reconfigure` / `state`) is translated
directly from `device_manager.cpp`.
-/

/-- Modelled from the spec: the selector type of `cgroups::devices::Entry`
(section 3.1), one of Block, Character or All; the source enum lives in
`linux/cgroups2.hpp`, outside the verified sources. -/
inductive DeviceType where
  | block
  | character
  | all
deriving DecidableEq

/-- Modelled from the spec: an access mask with independent read, write and
mknod bits (section 3.2); the source struct `Entry::Access` lives in
`linux/cgroups2.hpp`, outside the verified sources. -/
structure Access where
  read : Bool
  write : Bool
  mknod : Bool
deriving DecidableEq

/-- Modelled from the spec: `Access::none()` holds iff all three bits are
false (section 3.2). -/
def Access.none (a : Access) : Bool :=
  !a.read && !a.write && !a.mknod

/-- Modelled from the spec: a device selector (section 3.1).  `Option.none`
in `major` / `minor` is the numeric wildcard ("any"). -/
structure Selector where
  type : DeviceType
  major : Option Nat
  minor : Option Nat
deriving DecidableEq

/-- Modelled from the spec: a selector is a wildcard selector iff its type is
All or its major or minor is the wildcard (section 3.1). -/
def Selector.has_wildcard (s : Selector) : Bool :=
  s.type == DeviceType.all || s.major.isNone || s.minor.isNone

/-- Modelled from the spec: selector encompassment (section 3.1): `a`
encompasses `b` iff every device matched by `b` is matched by `a`. -/
def Selector.encompasses (a b : Selector) : Bool :=
  (a.type == DeviceType.all || a.type == b.type)
  && (a.major.isNone || a.major == b.major)
  && (a.minor.isNone || a.minor == b.minor)

/-- Modelled from the spec: an entry is a selector plus an access mask
(section 3.3); the source struct `cgroups::devices::Entry` lives in
`linux/cgroups2.hpp`, outside the verified sources. -/
structure Entry where
  selector : Selector
  access : Access
deriving DecidableEq

/-- Modelled from the spec: entry encompassment (section 3.3): selector
encompassment plus access-bit superset. -/
def Entry.encompasses (a b : Entry) : Bool :=
  a.selector.encompasses b.selector
  && (!b.access.read || a.access.read)
  && (!b.access.write || a.access.write)
  && (!b.access.mknod || a.access.mknod)

/-- Modelled from the spec: the selector type of a non-wildcard entry is
Block or Character only (section 3.4); the source type
`DeviceManager::NonWildcardEntry::Selector::Type` is declared in
`device_manager.hpp`, outside the verified sources. -/
inductive NWType where
  | block
  | character
deriving DecidableEq

/-- Modelled from the spec: the selector of a non-wildcard entry has a
non-wildcard type and concrete major and minor numbers (section 3.4). -/
structure NWSelector where
  type : NWType
  major : Nat
  minor : Nat
deriving DecidableEq

/-- Modelled from the spec: `DeviceManager::NonWildcardEntry` (section 3.4). -/
structure NonWildcardEntry where
  selector : NWSelector
  access : Access
deriving DecidableEq

/-- Translation of `convert_to_entries` from `device_manager.cpp`: embed
non-wildcard entries into general entries. -/
def convert_to_entries (non_wildcards_entries : List NonWildcardEntry) :
    List Entry :=
  non_wildcards_entries.map (fun nw =>
    { selector :=
        { type :=
            match nw.selector.type with
            | NWType.block => DeviceType.block
            | NWType.character => DeviceType.character
          major := Option.some nw.selector.major
          minor := Option.some nw.selector.minor }
      access := nw.access })

/-- Translation of `DeviceManager::CgroupDeviceAccess` (declared in
`device_manager.hpp`, shape fully determined by its uses in
`device_manager.cpp`): a pair of allow and deny entry lists. -/
structure CgroupDeviceAccess where
  allow_list : List Entry
  deny_list : List Entry
deriving DecidableEq

/-- Default-constructed `CgroupDeviceAccess`: two empty lists. -/
def CgroupDeviceAccess.empty : CgroupDeviceAccess :=
  { allow_list := [], deny_list := [] }

/-- Translation of the `revoke_accesses` lambda in
`DeviceManager::apply_diff` (`device_manager.cpp`), with its two `CHECK`
assertions dropped (see `revoke_accesses_checked` for the asserted
variant): if the two selectors agree on major, minor and type, clear in
`entry` every access bit set in `diff_entry`. -/
def revoke_accesses (entry : Entry) (diff_entry : Entry) : Entry :=
  if entry.selector.major == diff_entry.selector.major
      && entry.selector.minor == diff_entry.selector.minor
      && entry.selector.type == diff_entry.selector.type then
    { entry with
      access :=
        { mknod := entry.access.mknod && !diff_entry.access.mknod
          read := entry.access.read && !diff_entry.access.read
          write := entry.access.write && !diff_entry.access.write } }
  else entry

/-- Translation of the additions loop body of `DeviceManager::apply_diff`:
revoke the addition's accesses from every matching deny entry, then append
the addition to the allow list. -/
def apply_addition (state : CgroupDeviceAccess) (addition : Entry) :
    CgroupDeviceAccess :=
  { allow_list := state.allow_list ++ [addition]
    deny_list := state.deny_list.map (fun d => revoke_accesses d addition) }

/-- Translation of the body of the inner allow-list loop of the removals
phase of `DeviceManager::apply_diff`: the accumulator carries the accesses
granted by matching wildcard entries and the rewritten allow list. -/
def removal_allow_step (removal : Entry) (acc : Access × List Entry)
    (allow_entry : Entry) : Access × List Entry :=
  if allow_entry.selector.has_wildcard then
    if (allow_entry.selector.type != DeviceType.all
          && allow_entry.selector.type != removal.selector.type)
        || (allow_entry.selector.major.isSome
          && allow_entry.selector.major != removal.selector.major)
        || (allow_entry.selector.minor.isSome
          && allow_entry.selector.minor != removal.selector.minor) then
      (acc.1, acc.2 ++ [allow_entry])
    else
      ({ mknod := acc.1.mknod || allow_entry.access.mknod
         read := acc.1.read || allow_entry.access.read
         write := acc.1.write || allow_entry.access.write },
       acc.2 ++ [allow_entry])
  else
    (acc.1, acc.2 ++ [revoke_accesses allow_entry removal])

/-- Translation of the removals loop body of `DeviceManager::apply_diff`:
shrink matching non-wildcard allow entries, collect the accesses granted by
matching wildcard allow entries, and append a deny entry for the part of the
removal that only wildcards granted, when that part is non-empty. -/
def apply_removal (state : CgroupDeviceAccess) (removal : Entry) :
    CgroupDeviceAccess :=
  let folded := state.allow_list.foldl (removal_allow_step removal)
    ({ read := false, write := false, mknod := false }, [])
  let removal_access : Access :=
    { mknod := removal.access.mknod && folded.1.mknod
      read := removal.access.read && folded.1.read
      write := removal.access.write && folded.1.write }
  { allow_list := folded.2
    deny_list :=
      if !removal_access.none then
        state.deny_list ++ [{ selector := removal.selector
                              access := removal_access }]
      else state.deny_list }

/-- Translation of the `strip_empties` lambda in `DeviceManager::apply_diff`:
drop every entry whose access mask is empty. -/
def strip_empties (entries : List Entry) : List Entry :=
  entries.filter (fun entry => !entry.access.none)

/-- Translation of `DeviceManager::apply_diff` (`device_manager.cpp`,
lines 249-341): apply all additions, then all removals, then strip empty
entries from both lists. -/
def apply_diff (old_state : CgroupDeviceAccess)
    (non_wildcard_additions : List NonWildcardEntry)
    (non_wildcard_removals : List NonWildcardEntry) : CgroupDeviceAccess :=
  let additions := convert_to_entries non_wildcard_additions
  let removals := convert_to_entries non_wildcard_removals
  let state1 := additions.foldl apply_addition old_state
  let state2 := removals.foldl apply_removal state1
  { allow_list := strip_empties state2.allow_list
    deny_list := strip_empties state2.deny_list }

/-- Shorthand constructor for a general entry, used by concrete test
states. -/
def ent (t : DeviceType) (M m : Option Nat) (r w mk : Bool) : Entry :=
  { selector := { type := t, major := M, minor := m }
    access := { read := r, write := w, mknod := mk } }

/-- Shorthand constructor for a non-wildcard entry, used by concrete test
states. -/
def nwent (t : NWType) (M m : Nat) (r w mk : Bool) : NonWildcardEntry :=
  { selector := { type := t, major := M, minor := m }
    access := { read := r, write := w, mknod := mk } }

example :
    apply_diff
      { allow_list := [ent DeviceType.character (some 3) (some 1) true true true]
        deny_list := [] }
      [] [nwent NWType.character 3 1 true false true]
    = { allow_list := [ent DeviceType.character (some 3) (some 1) false true false]
        deny_list := [] } := by decide

example :
    apply_diff
      { allow_list := [ent DeviceType.character (some 3) Option.none true true true]
        deny_list := [ent DeviceType.character (some 3) (some 1) true true true] }
      [nwent NWType.character 3 1 true false true] []
    = { allow_list := [ent DeviceType.character (some 3) Option.none true true true,
                       ent DeviceType.character (some 3) (some 1) true false true]
        deny_list := [ent DeviceType.character (some 3) (some 1) false true false] } := by
  decide

example :
    apply_diff
      { allow_list := [ent DeviceType.character (some 3) Option.none true false true]
        deny_list := [] }
      [] [nwent NWType.character 3 1 true true false]
    = { allow_list := [ent DeviceType.character (some 3) Option.none true false true]
        deny_list := [ent DeviceType.character (some 3) (some 1) true false false] } := by
  decide

example :
    apply_diff
      { allow_list := [ent DeviceType.character (some 3) (some 1) true false true]
        deny_list := [] }
      [] [nwent NWType.character 3 1 true true true]
    = CgroupDeviceAccess.empty := by decide

/-- Model of the stout `Try<Nothing>` result of the cgroup driver call. -/
inductive TryUnit where
  | ok
  | err (msg : String)
deriving DecidableEq

/-- Model of the external cgroup driver `cgroups2::devices::configure`
(declared in `linux/cgroups2.hpp`, outside the verified sources; section 6.1
of the spec): a function from cgroup, allow list and deny list to a result,
kept abstract as a parameter of the manager operations. -/
def Driver : Type :=
  String → List Entry → List Entry → TryUnit

/-- Error kinds surfaced by the manager operations (section 7 of the
spec); messages accompanying the first two kinds are abstracted away. -/
inductive DMError where
  | AllowCoveredByDeny
  | AdditionCoveredByRemoval
  | CommitFailed (msg : String)
deriving DecidableEq

/-- Model of the `Future<Nothing>` outcome of a manager operation: either
success or a typed failure. -/
inductive DMResult where
  | ok
  | err (e : DMError)
deriving DecidableEq

/-- Model of the `hashmap<string, CgroupDeviceAccess>` member
`device_access_per_cgroup`: a total map, a missing key reading as the
default-constructed (empty) policy, exactly as `operator[]` and
`state(cgroup)` treat it. -/
def Store : Type :=
  String → CgroupDeviceAccess

/-- The store of a freshly created manager: every cgroup maps to the empty
policy. -/
def Store.empty : Store :=
  fun _ => CgroupDeviceAccess.empty

/-- Point update of the store, modelling assignment through `operator[]`. -/
def Store.update (s : Store) (cgroup : String) (v : CgroupDeviceAccess) :
    Store :=
  fun c => if c = cgroup then v else s c

/-- Translation of
`DeviceManagerProcess::commit_device_access_changes`: invoke the driver on
the stored policy of the cgroup, wrapping a driver error message. -/
def commit_device_access_changes (driver : Driver) (store : Store)
    (cgroup : String) : TryUnit :=
  match driver cgroup (store cgroup).allow_list (store cgroup).deny_list with
  | TryUnit.err e => TryUnit.err ("Failed to configure device access: " ++ e)
  | TryUnit.ok => TryUnit.ok

/-- Translation of `DeviceManagerProcess::configure` (`device_manager.cpp`,
lines 78-107): validate that no deny entry encompasses an allow entry,
then store `(allow_list, converted deny list)` for the cgroup and commit via
the driver; the store is not rolled back on commit failure.  The C++ loop
returns on the first violating pair; since the failure kind does not depend
on the pair, the guard is expressed with `List.any`. -/
def DeviceManagerProcess.configure (driver : Driver) (store : Store)
    (cgroup : String) (allow_list : List Entry)
    (non_wildcard_deny_list : List NonWildcardEntry) : DMResult × Store :=
  let deny_list := convert_to_entries non_wildcard_deny_list
  if allow_list.any (fun allow_entry =>
      deny_list.any (fun deny_entry => deny_entry.encompasses allow_entry))
  then
    (DMResult.err DMError.AllowCoveredByDeny, store)
  else
    let store1 := store.update cgroup
      { allow_list := allow_list, deny_list := deny_list }
    match commit_device_access_changes driver store1 cgroup with
    | TryUnit.err e =>
        (DMResult.err (DMError.CommitFailed
          ("Failed to commit cgroup device access changes: " ++ e)), store1)
    | TryUnit.ok => (DMResult.ok, store1)

/-- Translation of `DeviceManagerProcess::reconfigure` (`device_manager.cpp`,
lines 109-141): validate that no removal encompasses an addition, then
replace the cgroup's policy with `apply_diff` of the current policy and
commit via the driver; the store is not rolled back on commit failure. -/
def DeviceManagerProcess.reconfigure (driver : Driver) (store : Store)
    (cgroup : String)
    (non_wildcard_additions : List NonWildcardEntry)
    (non_wildcard_removals : List NonWildcardEntry) : DMResult × Store :=
  let additions := convert_to_entries non_wildcard_additions
  let removals := convert_to_entries non_wildcard_removals
  if additions.any (fun addition =>
      removals.any (fun removal => removal.encompasses addition))
  then
    (DMResult.err DMError.AdditionCoveredByRemoval, store)
  else
    let store1 := store.update cgroup
      (apply_diff (store cgroup) non_wildcard_additions non_wildcard_removals)
    match commit_device_access_changes driver store1 cgroup with
    | TryUnit.err e =>
        (DMResult.err (DMError.CommitFailed
          ("Failed to commit cgroup device access changes: " ++ e)), store1)
    | TryUnit.ok => (DMResult.ok, store1)

/-- Translation of the single-cgroup `DeviceManagerProcess::state` overload:
the stored policy, the empty policy when the cgroup is absent. -/
def DeviceManagerProcess.state (store : Store) (cgroup : String) :
    CgroupDeviceAccess :=
  store cgroup

/-- A driver that always succeeds, used to build concrete reachable
states. -/
def driverOk : Driver :=
  fun _ _ _ => TryUnit.ok

/-- A driver that always fails, used to exercise the commit-failure path. -/
def driverFail : Driver :=
  fun _ _ _ => TryUnit.err "boom"

/-- The `revoke_accesses` lambda of `DeviceManager::apply_diff` with its two
`CHECK` assertions made explicit: the result is `Option.none` exactly when an
assertion would fire, i.e. when either selector has a wildcard. -/
def revoke_accesses_checked (entry : Entry) (diff_entry : Entry) :
    Option Entry :=
  if entry.selector.has_wildcard || diff_entry.selector.has_wildcard then
    Option.none
  else
    Option.some (revoke_accesses entry diff_entry)

/-- The deny-list loop of the additions phase under the checked revocation
helper: revoke the addition's accesses from each deny entry in order,
failing as soon as an assertion fires. -/
def revoke_list_checked (l : List Entry) (a : Entry) : Option (List Entry) :=
  match l with
  | [] => Option.some []
  | d :: l => do
    let d2 ← revoke_accesses_checked d a
    let rest ← revoke_list_checked l a
    pure (d2 :: rest)

/-- The additions loop body of `apply_diff` under the checked revocation
helper. -/
def apply_addition_checked (state : CgroupDeviceAccess) (addition : Entry) :
    Option CgroupDeviceAccess := do
  let deny ← revoke_list_checked state.deny_list addition
  pure { allow_list := state.allow_list ++ [addition], deny_list := deny }

/-- The inner allow-list loop body of the removals phase of `apply_diff`
under the checked revocation helper; only the non-wildcard branch calls the
helper. -/
def removal_allow_step_checked (removal : Entry) (acc : Access × List Entry)
    (allow_entry : Entry) : Option (Access × List Entry) :=
  if allow_entry.selector.has_wildcard then
    Option.some (removal_allow_step removal acc allow_entry)
  else do
    let e ← revoke_accesses_checked allow_entry removal
    pure (acc.1, acc.2 ++ [e])

/-- The removals loop body of `apply_diff` under the checked revocation
helper. -/
def apply_removal_checked (state : CgroupDeviceAccess) (removal : Entry) :
    Option CgroupDeviceAccess := do
  let folded ← state.allow_list.foldlM (removal_allow_step_checked removal)
    (({ read := false, write := false, mknod := false } : Access), [])
  let removal_access : Access :=
    { mknod := removal.access.mknod && folded.1.mknod
      read := removal.access.read && folded.1.read
      write := removal.access.write && folded.1.write }
  pure
    { allow_list := folded.2
      deny_list :=
        if !removal_access.none then
          state.deny_list ++ [{ selector := removal.selector
                                access := removal_access }]
        else state.deny_list }

/-- `DeviceManager::apply_diff` with the `CHECK` assertions of
`revoke_accesses` made explicit: `Option.none` exactly when some assertion
fires during the computation. -/
def apply_diff_checked (old_state : CgroupDeviceAccess)
    (non_wildcard_additions : List NonWildcardEntry)
    (non_wildcard_removals : List NonWildcardEntry) :
    Option CgroupDeviceAccess := do
  let additions := convert_to_entries non_wildcard_additions
  let removals := convert_to_entries non_wildcard_removals
  let state1 ← additions.foldlM apply_addition_checked old_state
  let state2 ← removals.foldlM apply_removal_checked state1
  pure { allow_list := strip_empties state2.allow_list
         deny_list := strip_empties state2.deny_list }

/-- Bit-wise union of two access masks (spec section 3.2). -/
def access_union (a b : Access) : Access :=
  { read := a.read || b.read
    write := a.write || b.write
    mknod := a.mknod || b.mknod }

/-- Bit-wise intersection of two access masks (spec section 3.2). -/
def access_inter (a b : Access) : Access :=
  { read := a.read && b.read
    write := a.write && b.write
    mknod := a.mknod && b.mknod }

/-- Bit-wise subtraction of two access masks (spec section 3.2). -/
def access_minus (a b : Access) : Access :=
  { read := a.read && !b.read
    write := a.write && !b.write
    mknod := a.mknod && !b.mknod }

/-- Transcription of the spec's step-2 wildcard matching condition
(section 4.2, step 2): the wildcard entry's type is All or equals the
removal's type, and each concrete numeric field equals the removal's. -/
def spec_wild_matches (w r : Entry) : Bool :=
  (w.selector.type == DeviceType.all || w.selector.type == r.selector.type)
  && (!w.selector.major.isSome || w.selector.major == r.selector.major)
  && (!w.selector.minor.isSome || w.selector.minor == r.selector.minor)

/-- Transcription of the spec's `wild_granted` (section 4.2, step 2): the
union of the accesses of the wildcard allow entries matching the removal. -/
def spec_wild_granted (allow : List Entry) (r : Entry) : Access :=
  allow.foldl
    (fun acc w =>
      if w.selector.has_wildcard && spec_wild_matches w r then
        access_union acc w.access
      else acc)
    { read := false, write := false, mknod := false }

/-- Equality of all three selector fields, the spec's matching condition for
shrinking non-wildcard allow entries (section 4.2, step 2). -/
def spec_selector_eq (x r : Entry) : Bool :=
  x.selector.major == r.selector.major
  && x.selector.minor == r.selector.minor
  && x.selector.type == r.selector.type

/-- Transcription of the spec's step 2 for one removal (section 4.2): shrink
every matching non-wildcard allow entry by the removal's access, leave
wildcard allow entries untouched, and append the deny entry
`(r.selector, residual)` with `residual = r.access AND wild_granted` iff the
residual is non-empty. -/
def spec_step2 (state : CgroupDeviceAccess) (r : Entry) : CgroupDeviceAccess :=
  let wild_granted := spec_wild_granted state.allow_list r
  let residual := access_inter r.access wild_granted
  { allow_list :=
      state.allow_list.map (fun x =>
        if !x.selector.has_wildcard && spec_selector_eq x r then
          { x with access := access_minus x.access r.access }
        else x)
    deny_list :=
      if residual.none then state.deny_list
      else state.deny_list ++ [{ selector := r.selector, access := residual }] }

theorem skip_cond_eq (x r : Entry) :
    ((x.selector.type != DeviceType.all
        && x.selector.type != r.selector.type)
      || (x.selector.major.isSome
        && x.selector.major != r.selector.major)
      || (x.selector.minor.isSome
        && x.selector.minor != r.selector.minor))
    = !spec_wild_matches x r := by
  unfold spec_wild_matches
  cases hp : (x.selector.type == DeviceType.all) <;>
  cases hq : (x.selector.type == r.selector.type) <;>
  cases hs : x.selector.major.isSome <;>
  cases he : (x.selector.major == r.selector.major) <;>
  cases hs2 : x.selector.minor.isSome <;>
  cases he2 : (x.selector.minor == r.selector.minor) <;>
  simp [bne, hp, hq, hs, he, hs2, he2]

theorem removal_allow_step_eq (r x : Entry) (a : Access) (es : List Entry) :
    removal_allow_step r (a, es) x
      = (if x.selector.has_wildcard && spec_wild_matches x r then
           access_union a x.access
         else a,
         es ++ [if x.selector.has_wildcard then x else revoke_accesses x r]) := by
  unfold removal_allow_step
  cases hw : x.selector.has_wildcard
  case false => simp
  case true =>
    rw [skip_cond_eq]
    cases hm : spec_wild_matches x r <;> simp [access_union]

theorem foldl_removal_allow_step (r : Entry) :
    ∀ (l : List Entry) (a : Access) (es : List Entry),
      l.foldl (removal_allow_step r) (a, es)
        = (l.foldl
            (fun acc w =>
              if w.selector.has_wildcard && spec_wild_matches w r then
                access_union acc w.access
              else acc) a,
           es ++ l.map (fun x =>
             if x.selector.has_wildcard then x else revoke_accesses x r))
  | [], a, es => by simp
  | x :: l, a, es => by
    rw [List.foldl_cons, removal_allow_step_eq, foldl_removal_allow_step r l]
    simp

theorem allow_map_pointwise (r x : Entry) :
    (if x.selector.has_wildcard then x else revoke_accesses x r)
      = (if !x.selector.has_wildcard && spec_selector_eq x r then
           { x with access := access_minus x.access r.access }
         else x) := by
  cases hw : x.selector.has_wildcard
  case false =>
    simp only [hw, Bool.not_false, Bool.true_and, if_neg, Bool.false_eq_true,
      not_false_iff]
    unfold revoke_accesses spec_selector_eq access_minus
    rfl
  case true => simp [hw]

theorem bool_ite_flip {α : Sort _} (c : Bool) (A B : α) :
    (if !c then A else B) = if c then B else A := by
  cases c <;> rfl

theorem apply_removal_eq_spec_step2 (s : CgroupDeviceAccess) (r : Entry) :
    apply_removal s r = spec_step2 s r := by
  simp only [apply_removal, spec_step2, spec_wild_granted]
  rw [foldl_removal_allow_step]
  simp only [List.nil_append]
  rw [funext (allow_map_pointwise r)]
  rw [bool_ite_flip]
  rfl

/-- C1: for every state and every sequence of non-wildcard removals,
`apply_diff` processes each removal exactly as the spec's step 2
(`spec_step2`, transcribed from the spec's wording): matching non-wildcard
allow entries are shrunk bit-wise, wildcard allow entries are never mutated,
and a deny entry `(r.selector, residual)` with
`residual = r.access AND wild_granted` is appended iff the residual is
non-empty. -/
theorem apply_diff_removals_follow_spec_step2 (old_state : CgroupDeviceAccess)
    (adds rems : List NonWildcardEntry) :
    apply_diff old_state adds rems
      = { allow_list := strip_empties
            ((convert_to_entries rems).foldl spec_step2
              ((convert_to_entries adds).foldl apply_addition old_state)).allow_list
          deny_list := strip_empties
            ((convert_to_entries rems).foldl spec_step2
              ((convert_to_entries adds).foldl apply_addition old_state)).deny_list } := by
  have h : apply_removal = spec_step2 :=
    funext fun s => funext fun r => apply_removal_eq_spec_step2 s r
  simp only [apply_diff, h]

/-- Decidable form of spec invariant P2 for a single policy: no entry of
either list has an empty access mask. -/
def no_empty_access (cda : CgroupDeviceAccess) : Bool :=
  cda.allow_list.all (fun e => !e.access.none)
  && cda.deny_list.all (fun e => !e.access.none)

theorem strip_empties_of_all : ∀ (l : List Entry),
    l.all (fun e => !e.access.none) = true → strip_empties l = l
  | [], _ => rfl
  | e :: l, h => by
    simp only [List.all_cons, Bool.and_eq_true] at h
    have ih := strip_empties_of_all l h.2
    simp only [strip_empties] at ih ⊢
    simp [List.filter_cons, h.1, ih]

/-- C7: with empty additions and removals, `apply_diff` only runs
strip-empties, which is the identity on a state without empty-access
entries. -/
theorem apply_diff_identity (s : CgroupDeviceAccess)
    (h : no_empty_access s = true) :
    apply_diff s [] [] = s := by
  simp only [no_empty_access, Bool.and_eq_true] at h
  simp only [apply_diff, convert_to_entries, List.map_nil, List.foldl_nil]
  rw [strip_empties_of_all _ h.1, strip_empties_of_all _ h.2]

/-- Closed instance of `apply_diff_identity` at a concrete valid state. -/
theorem apply_diff_identity_witness :
    apply_diff
      { allow_list := [ent DeviceType.all Option.none Option.none true false true]
        deny_list := [ent DeviceType.character (some 3) (some 1) false true false] }
      [] []
    = { allow_list := [ent DeviceType.all Option.none Option.none true false true]
        deny_list := [ent DeviceType.character (some 3) (some 1) false true false] } :=
  apply_diff_identity _ (by decide)

/-- C8: adding then removing the same non-wildcard entry with non-empty
access over the empty policy yields the empty policy. -/
theorem apply_diff_round_trip (e : NonWildcardEntry)
    (h : e.access.none = false) :
    apply_diff (apply_diff CgroupDeviceAccess.empty [e] []) [] [e]
      = CgroupDeviceAccess.empty := by
  obtain ⟨⟨t, M, m⟩, ⟨r, w, mk⟩⟩ := e
  simp only [Access.none] at h
  cases t <;> cases r <;> cases w <;> cases mk <;>
    simp_all [apply_diff, convert_to_entries, apply_addition, apply_removal,
      removal_allow_step, revoke_accesses, strip_empties, Selector.has_wildcard,
      Access.none, CgroupDeviceAccess.empty, List.filter_cons,
      List.foldl_cons, List.foldl_nil, beq_self_eq_true]

/-- Closed instance of `apply_diff_round_trip` at a concrete entry. -/
theorem apply_diff_round_trip_witness :
    apply_diff (apply_diff CgroupDeviceAccess.empty
        [nwent NWType.character 3 1 true true false] [])
      [] [nwent NWType.character 3 1 true true false]
    = CgroupDeviceAccess.empty :=
  apply_diff_round_trip (nwent NWType.character 3 1 true true false) (by decide)

/-- C10: `apply_diff` itself enforces no relation between additions and
removals: a removal equal to a same-call addition silently cancels it, so
over the empty policy the result is again the empty policy; the
no-removal-encompasses-addition check lives only in `reconfigure`, which
rejects the same pair with `AdditionCoveredByRemoval`. -/
theorem apply_diff_cancels_same_call_addition (e : NonWildcardEntry)
    (driver : Driver) (store : Store) (cgroup : String) :
    apply_diff CgroupDeviceAccess.empty [e] [e] = CgroupDeviceAccess.empty
    ∧ DeviceManagerProcess.reconfigure driver store cgroup [e] [e]
        = (DMResult.err DMError.AdditionCoveredByRemoval, store) := by
  obtain ⟨⟨t, M, m⟩, ⟨r, w, mk⟩⟩ := e
  constructor
  · cases t <;> cases r <;> cases w <;> cases mk <;>
      simp [apply_diff, convert_to_entries, apply_addition, apply_removal,
        removal_allow_step, revoke_accesses, strip_empties,
        Selector.has_wildcard, Access.none, CgroupDeviceAccess.empty,
        List.filter_cons, List.foldl_cons, List.foldl_nil, beq_self_eq_true]
  · cases t <;> cases r <;> cases w <;> cases mk <;>
      simp [DeviceManagerProcess.reconfigure, convert_to_entries,
        Entry.encompasses, Selector.encompasses, beq_self_eq_true]

theorem convert_to_entries_no_wildcard (l : List NonWildcardEntry) :
    ∀ e ∈ convert_to_entries l, e.selector.has_wildcard = false := by
  intro e he
  simp only [convert_to_entries, List.mem_map] at he
  obtain ⟨nw, _, rfl⟩ := he
  cases h : nw.selector.type <;> simp [Selector.has_wildcard, h]

theorem revoke_accesses_selector (d a : Entry) :
    (revoke_accesses d a).selector = d.selector := by
  unfold revoke_accesses
  split <;> rfl

theorem revoke_list_checked_some (a : Entry)
    (ha : a.selector.has_wildcard = false) (l : List Entry)
    (h : ∀ d ∈ l, d.selector.has_wildcard = false) :
    revoke_list_checked l a
      = Option.some (l.map (fun d => revoke_accesses d a)) := by
  induction l with
  | nil => rfl
  | cons d l ih =>
    have hd := h d (List.mem_cons_self d l)
    have hl : ∀ x ∈ l, x.selector.has_wildcard = false :=
      fun x hx => h x (List.mem_cons_of_mem d hx)
    simp [revoke_list_checked, revoke_accesses_checked, hd, ha, ih hl]

theorem revoke_list_checked_none (a : Entry) (l : List Entry)
    (h : ∃ d ∈ l, d.selector.has_wildcard = true) :
    revoke_list_checked l a = Option.none := by
  induction l with
  | nil => simp at h
  | cons d l ih =>
    cases hd : d.selector.has_wildcard
    · obtain ⟨x, hx, hxw⟩ := h
      rcases List.mem_cons.mp hx with rfl | hx'
      · rw [hd] at hxw; exact absurd hxw (by simp)
      · cases ha : a.selector.has_wildcard
        · simp [revoke_list_checked, revoke_accesses_checked, hd, ha,
            ih ⟨x, hx', hxw⟩]
        · simp [revoke_list_checked, revoke_accesses_checked, hd, ha]
    · simp [revoke_list_checked, revoke_accesses_checked, hd]

theorem apply_addition_deny_no_wildcard (st : CgroupDeviceAccess) (a : Entry)
    (h : ∀ d ∈ st.deny_list, d.selector.has_wildcard = false) :
    ∀ d ∈ (apply_addition st a).deny_list, d.selector.has_wildcard = false := by
  intro d hd
  simp only [apply_addition, List.mem_map] at hd
  obtain ⟨x, hx, rfl⟩ := hd
  rw [revoke_accesses_selector]
  exact h x hx

theorem foldlM_additions_some (adds : List Entry) :
    ∀ (st : CgroupDeviceAccess),
      (∀ a ∈ adds, a.selector.has_wildcard = false) →
      (∀ d ∈ st.deny_list, d.selector.has_wildcard = false) →
      adds.foldlM apply_addition_checked st
        = Option.some (adds.foldl apply_addition st) := by
  induction adds with
  | nil => intro st _ _; rfl
  | cons a adds ih =>
    intro st ha hst
    have ha1 := ha a (List.mem_cons_self a adds)
    have hrest : ∀ x ∈ adds, x.selector.has_wildcard = false :=
      fun x hx => ha x (List.mem_cons_of_mem a hx)
    have h1 : apply_addition_checked st a = Option.some (apply_addition st a) := by
      simp [apply_addition_checked,
        revoke_list_checked_some a ha1 st.deny_list hst, apply_addition]
    simp [List.foldlM_cons, h1,
      ih _ hrest (apply_addition_deny_no_wildcard st a hst)]

theorem removal_step_checked_some (r : Entry)
    (hr : r.selector.has_wildcard = false) (acc : Access × List Entry)
    (x : Entry) :
    removal_allow_step_checked r acc x
      = Option.some (removal_allow_step r acc x) := by
  unfold removal_allow_step_checked
  cases hw : x.selector.has_wildcard
  · simp [hw, revoke_accesses_checked, hr, removal_allow_step]
  · simp [hw]

theorem foldlM_removal_steps_some (r : Entry)
    (hr : r.selector.has_wildcard = false) (l : List Entry) :
    ∀ acc, l.foldlM (removal_allow_step_checked r) acc
      = Option.some (l.foldl (removal_allow_step r) acc) := by
  induction l with
  | nil => intro acc; rfl
  | cons x l ih =>
    intro acc
    simp [List.foldlM_cons, removal_step_checked_some r hr, ih]

theorem apply_removal_checked_some (st : CgroupDeviceAccess) (r : Entry)
    (hr : r.selector.has_wildcard = false) :
    apply_removal_checked st r = Option.some (apply_removal st r) := by
  simp [apply_removal_checked, foldlM_removal_steps_some r hr, apply_removal]

theorem foldlM_removals_some : ∀ (rems : List Entry),
    (∀ r ∈ rems, r.selector.has_wildcard = false) →
    ∀ st, rems.foldlM apply_removal_checked st
      = Option.some (rems.foldl apply_removal st)
  | [], _, st => rfl
  | r :: rems, h, st => by
    simp [List.foldlM_cons,
      apply_removal_checked_some st r (h r (List.mem_cons_self r rems)),
      foldlM_removals_some rems (fun x hx => h x (List.mem_cons_of_mem r hx))]

/-- C9: `apply_diff` is total (no `CHECK` fires) whenever the old state's
deny list is free of wildcards, for all non-wildcard additions and removals;
and for every old state whose deny list contains a wildcard entry there are
inputs on which the assertion in the access-revocation helper fires, so
totality holds only under the non-wildcard-deny precondition. -/
theorem apply_diff_checked_totality :
    (∀ (old_state : CgroupDeviceAccess) (adds rems : List NonWildcardEntry),
      (∀ d ∈ old_state.deny_list, d.selector.has_wildcard = false) →
      apply_diff_checked old_state adds rems
        = Option.some (apply_diff old_state adds rems))
    ∧ (∀ (old_state : CgroupDeviceAccess),
      (∃ d ∈ old_state.deny_list, d.selector.has_wildcard = true) →
      ∃ (adds rems : List NonWildcardEntry),
        apply_diff_checked old_state adds rems = Option.none) := by
  constructor
  · intro old adds rems h
    simp only [apply_diff_checked, apply_diff]
    rw [foldlM_additions_some _ _ (convert_to_entries_no_wildcard adds) h]
    simp only [Option.bind_eq_bind, Option.some_bind]
    rw [foldlM_removals_some _ (convert_to_entries_no_wildcard rems)]
    simp only [Option.some_bind]
    rfl
  · intro old h
    refine ⟨[nwent NWType.block 0 0 true false false], [], ?_⟩
    have hfire : apply_addition_checked old
        { selector := { type := DeviceType.block, major := some 0, minor := some 0 }
          access := { read := true, write := false, mknod := false } }
        = Option.none := by
      simp [apply_addition_checked,
        revoke_list_checked_none _ old.deny_list h]
    simp [apply_diff_checked, convert_to_entries, nwent,
      List.foldlM_cons, hfire]

/-- Closed instance of `apply_diff_checked_totality`: the checked engine
agrees with `apply_diff` on a concrete wildcard-free state and is undefined
at a concrete state with a wildcard deny entry. -/
theorem apply_diff_checked_totality_witness :
    apply_diff_checked
        { allow_list := [ent DeviceType.character (some 3) (some 1) true true false]
          deny_list := [ent DeviceType.character (some 1) (some 3) false true false] }
        [] []
      = Option.some (apply_diff
        { allow_list := [ent DeviceType.character (some 3) (some 1) true true false]
          deny_list := [ent DeviceType.character (some 1) (some 3) false true false] }
        [] [])
    ∧ ∃ (adds rems : List NonWildcardEntry),
        apply_diff_checked
          { allow_list := []
            deny_list := [ent DeviceType.all Option.none Option.none true true true] }
          adds rems = Option.none :=
  ⟨apply_diff_checked_totality.1 _ [] [] (by decide),
   apply_diff_checked_totality.2 _ (by decide)⟩

theorem cond_false_of_forall (l1 l2 : List Entry) (p : Entry → Entry → Bool)
    (h : ∀ a ∈ l1, ∀ d ∈ l2, p d a = false) :
    (l1.any fun a => l2.any fun d => p d a) = false := by
  cases hx : (l1.any fun a => l2.any fun d => p d a)
  · rfl
  · exfalso
    obtain ⟨a, ha, hinner⟩ := List.any_eq_true.mp hx
    obtain ⟨d, hd, hpd⟩ := List.any_eq_true.mp hinner
    rw [h a ha d hd] at hpd
    exact Bool.false_ne_true hpd

theorem configure_of_valid (driver : Driver) (store : Store) (cgroup : String)
    (allow_list : List Entry) (nwdeny : List NonWildcardEntry)
    (hall : ∀ a ∈ allow_list, ∀ d ∈ convert_to_entries nwdeny,
      d.encompasses a = false) :
    DeviceManagerProcess.configure driver store cgroup allow_list nwdeny
      = ((match driver cgroup allow_list (convert_to_entries nwdeny) with
          | TryUnit.err e => DMResult.err (DMError.CommitFailed
              ("Failed to commit cgroup device access changes: "
                ++ ("Failed to configure device access: " ++ e)))
          | TryUnit.ok => DMResult.ok),
         store.update cgroup
           { allow_list := allow_list
             deny_list := convert_to_entries nwdeny }) := by
  have hcond := cond_false_of_forall allow_list (convert_to_entries nwdeny)
    (fun d a => d.encompasses a) hall
  have hcommit : commit_device_access_changes driver
      (store.update cgroup
        { allow_list := allow_list, deny_list := convert_to_entries nwdeny })
      cgroup
      = (match driver cgroup allow_list (convert_to_entries nwdeny) with
         | TryUnit.err e =>
             TryUnit.err ("Failed to configure device access: " ++ e)
         | TryUnit.ok => TryUnit.ok) := by
    simp [commit_device_access_changes, Store.update]
  simp only [DeviceManagerProcess.configure, hcond, Bool.false_eq_true,
    if_false, hcommit]
  cases hdrv : driver cgroup allow_list (convert_to_entries nwdeny) <;>
    simp [hdrv]

theorem reconfigure_of_valid (driver : Driver) (store : Store)
    (cgroup : String) (adds rems : List NonWildcardEntry)
    (hall : ∀ a ∈ convert_to_entries adds, ∀ r ∈ convert_to_entries rems,
      r.encompasses a = false) :
    DeviceManagerProcess.reconfigure driver store cgroup adds rems
      = ((match driver cgroup (apply_diff (store cgroup) adds rems).allow_list
              (apply_diff (store cgroup) adds rems).deny_list with
          | TryUnit.err e => DMResult.err (DMError.CommitFailed
              ("Failed to commit cgroup device access changes: "
                ++ ("Failed to configure device access: " ++ e)))
          | TryUnit.ok => DMResult.ok),
         store.update cgroup (apply_diff (store cgroup) adds rems)) := by
  have hcond := cond_false_of_forall (convert_to_entries adds)
    (convert_to_entries rems) (fun r a => r.encompasses a) hall
  have hcommit : commit_device_access_changes driver
      (store.update cgroup (apply_diff (store cgroup) adds rems)) cgroup
      = (match driver cgroup (apply_diff (store cgroup) adds rems).allow_list
            (apply_diff (store cgroup) adds rems).deny_list with
         | TryUnit.err e =>
             TryUnit.err ("Failed to configure device access: " ++ e)
         | TryUnit.ok => TryUnit.ok) := by
    simp [commit_device_access_changes, Store.update]
  simp only [DeviceManagerProcess.reconfigure, hcond, Bool.false_eq_true,
    if_false, hcommit]
  cases hdrv : driver cgroup (apply_diff (store cgroup) adds rems).allow_list
      (apply_diff (store cgroup) adds rems).deny_list <;>
    simp [hdrv]

/-- C2: `configure` fails with `AllowCoveredByDeny` and leaves the store
untouched when some deny entry encompasses some allow entry; otherwise it
replaces the cgroup's policy with exactly `(allow_list, converted deny
list)` and then commits via the driver, succeeding iff the driver does. -/
theorem configure_correct (driver : Driver) (store : Store) (cgroup : String)
    (allow_list : List Entry) (nwdeny : List NonWildcardEntry) :
    ((∃ a ∈ allow_list, ∃ d ∈ convert_to_entries nwdeny,
        d.encompasses a = true) →
      DeviceManagerProcess.configure driver store cgroup allow_list nwdeny
        = (DMResult.err DMError.AllowCoveredByDeny, store))
    ∧ ((∀ a ∈ allow_list, ∀ d ∈ convert_to_entries nwdeny,
        d.encompasses a = false) →
      (DeviceManagerProcess.configure driver store cgroup allow_list nwdeny).2
          = store.update cgroup
            { allow_list := allow_list, deny_list := convert_to_entries nwdeny }
      ∧ ((DeviceManagerProcess.configure driver store cgroup allow_list nwdeny).1
            = DMResult.ok
          ↔ driver cgroup allow_list (convert_to_entries nwdeny)
            = TryUnit.ok)) := by
  constructor
  · intro hex
    obtain ⟨a, ha, d, hd, hda⟩ := hex
    have hcond : allow_list.any (fun allow_entry =>
        (convert_to_entries nwdeny).any
          (fun deny_entry => deny_entry.encompasses allow_entry)) = true :=
      List.any_eq_true.mpr ⟨a, ha, List.any_eq_true.mpr ⟨d, hd, hda⟩⟩
    simp [DeviceManagerProcess.configure, hcond]
  · intro hall
    rw [configure_of_valid driver store cgroup allow_list nwdeny hall]
    cases hdrv : driver cgroup allow_list (convert_to_entries nwdeny) <;>
      simp [hdrv]

/-- Closed instance of `configure_correct`: a violating pair is rejected
with an untouched store, and a valid call stores the inputs verbatim. -/
theorem configure_correct_witness :
    DeviceManagerProcess.configure driverOk Store.empty "cg"
        [ent DeviceType.character (some 1) (some 3) true false false]
        [nwent NWType.character 1 3 true false false]
      = (DMResult.err DMError.AllowCoveredByDeny, Store.empty)
    ∧ (DeviceManagerProcess.configure driverOk Store.empty "cg"
        [ent DeviceType.character (some 1) (some 3) true false false] []).2
      = Store.empty.update "cg"
        { allow_list := [ent DeviceType.character (some 1) (some 3) true false false]
          deny_list := [] } :=
  ⟨(configure_correct driverOk Store.empty "cg"
      [ent DeviceType.character (some 1) (some 3) true false false]
      [nwent NWType.character 1 3 true false false]).1 (by decide),
   ((configure_correct driverOk Store.empty "cg"
      [ent DeviceType.character (some 1) (some 3) true false false] []).2
      (by decide)).1⟩

/-- C3: `reconfigure` fails with `AdditionCoveredByRemoval` and leaves the
store untouched when some removal encompasses some addition; otherwise it
sets the cgroup's policy to `apply_diff` of the current policy and then
commits via the driver, succeeding iff the driver does. -/
theorem reconfigure_correct (driver : Driver) (store : Store) (cgroup : String)
    (adds rems : List NonWildcardEntry) :
    ((∃ a ∈ convert_to_entries adds, ∃ r ∈ convert_to_entries rems,
        r.encompasses a = true) →
      DeviceManagerProcess.reconfigure driver store cgroup adds rems
        = (DMResult.err DMError.AdditionCoveredByRemoval, store))
    ∧ ((∀ a ∈ convert_to_entries adds, ∀ r ∈ convert_to_entries rems,
        r.encompasses a = false) →
      (DeviceManagerProcess.reconfigure driver store cgroup adds rems).2
          = store.update cgroup (apply_diff (store cgroup) adds rems)
      ∧ ((DeviceManagerProcess.reconfigure driver store cgroup adds rems).1
            = DMResult.ok
          ↔ driver cgroup (apply_diff (store cgroup) adds rems).allow_list
              (apply_diff (store cgroup) adds rems).deny_list
            = TryUnit.ok)) := by
  constructor
  · intro hex
    obtain ⟨a, ha, r, hr, hra⟩ := hex
    have hcond : (convert_to_entries adds).any (fun addition =>
        (convert_to_entries rems).any
          (fun removal => removal.encompasses addition)) = true :=
      List.any_eq_true.mpr ⟨a, ha, List.any_eq_true.mpr ⟨r, hr, hra⟩⟩
    simp [DeviceManagerProcess.reconfigure, hcond]
  · intro hall
    rw [reconfigure_of_valid driver store cgroup adds rems hall]
    cases hdrv : driver cgroup (apply_diff (store cgroup) adds rems).allow_list
        (apply_diff (store cgroup) adds rems).deny_list <;>
      simp [hdrv]

/-- Closed instance of `reconfigure_correct`: a removal encompassing an
addition is rejected with an untouched store, and a valid call stores the
`apply_diff` result. -/
theorem reconfigure_correct_witness :
    DeviceManagerProcess.reconfigure driverOk Store.empty "cg"
        [nwent NWType.character 1 3 true false false]
        [nwent NWType.character 1 3 true true false]
      = (DMResult.err DMError.AdditionCoveredByRemoval, Store.empty)
    ∧ (DeviceManagerProcess.reconfigure driverOk Store.empty "cg"
        [nwent NWType.character 1 3 true false false] []).2
      = Store.empty.update "cg"
        (apply_diff (Store.empty "cg")
          [nwent NWType.character 1 3 true false false] []) :=
  ⟨(reconfigure_correct driverOk Store.empty "cg"
      [nwent NWType.character 1 3 true false false]
      [nwent NWType.character 1 3 true true false]).1 (by decide),
   ((reconfigure_correct driverOk Store.empty "cg"
      [nwent NWType.character 1 3 true false false] []).2 (by decide)).1⟩

/-- C4: when validation passes but the driver commit fails, `configure` and
`reconfigure` return a `CommitFailed` error and the store keeps the
attempted new policy (no rollback): a subsequent `state(cgroup)` query
returns the new policy. -/
theorem commit_failed_no_rollback (driver : Driver) (store : Store)
    (cgroup : String) (allow_list : List Entry)
    (nwdeny adds rems : List NonWildcardEntry) :
    ((∀ a ∈ allow_list, ∀ d ∈ convert_to_entries nwdeny,
        d.encompasses a = false) →
     ∀ msg, driver cgroup allow_list (convert_to_entries nwdeny)
         = TryUnit.err msg →
      (∃ m, (DeviceManagerProcess.configure driver store cgroup
          allow_list nwdeny).1 = DMResult.err (DMError.CommitFailed m))
      ∧ DeviceManagerProcess.state
          (DeviceManagerProcess.configure driver store cgroup
            allow_list nwdeny).2 cgroup
        = { allow_list := allow_list, deny_list := convert_to_entries nwdeny })
    ∧ ((∀ a ∈ convert_to_entries adds, ∀ r ∈ convert_to_entries rems,
        r.encompasses a = false) →
     ∀ msg, driver cgroup (apply_diff (store cgroup) adds rems).allow_list
         (apply_diff (store cgroup) adds rems).deny_list = TryUnit.err msg →
      (∃ m, (DeviceManagerProcess.reconfigure driver store cgroup
          adds rems).1 = DMResult.err (DMError.CommitFailed m))
      ∧ DeviceManagerProcess.state
          (DeviceManagerProcess.reconfigure driver store cgroup adds rems).2
          cgroup
        = apply_diff (store cgroup) adds rems) := by
  constructor
  · intro hall msg hdrv
    refine ⟨⟨"Failed to commit cgroup device access changes: "
        ++ ("Failed to configure device access: " ++ msg), ?_⟩, ?_⟩
    · rw [configure_of_valid driver store cgroup allow_list nwdeny hall, hdrv]
    · rw [DeviceManagerProcess.state,
        configure_of_valid driver store cgroup allow_list nwdeny hall]
      simp [Store.update]
  · intro hall msg hdrv
    refine ⟨⟨"Failed to commit cgroup device access changes: "
        ++ ("Failed to configure device access: " ++ msg), ?_⟩, ?_⟩
    · rw [reconfigure_of_valid driver store cgroup adds rems hall, hdrv]
    · rw [DeviceManagerProcess.state,
        reconfigure_of_valid driver store cgroup adds rems hall]
      simp [Store.update]

/-- Closed instance of `commit_failed_no_rollback` with an always-failing
driver: the result is `CommitFailed` and the state query returns the
attempted policy. -/
theorem commit_failed_no_rollback_witness :
    (∃ m, (DeviceManagerProcess.configure driverFail Store.empty "cg"
        [ent DeviceType.character (some 1) (some 3) true false false] []).1
      = DMResult.err (DMError.CommitFailed m))
    ∧ DeviceManagerProcess.state
        (DeviceManagerProcess.configure driverFail Store.empty "cg"
          [ent DeviceType.character (some 1) (some 3) true false false] []).2
        "cg"
      = { allow_list := [ent DeviceType.character (some 1) (some 3) true false false]
          deny_list := [] } :=
  (commit_failed_no_rollback driverFail Store.empty "cg"
    [ent DeviceType.character (some 1) (some 3) true false false]
    [] [] []).1 (by decide) "boom" rfl

theorem forall_of_cond_false (l1 l2 : List Entry) (p : Entry → Entry → Bool)
    (h : (l1.any fun a => l2.any fun d => p d a) = false) :
    ∀ a ∈ l1, ∀ d ∈ l2, p d a = false := by
  intro a ha d hd
  cases hx : p d a
  · rfl
  · exfalso
    have hc : (l1.any fun a => l2.any fun d => p d a) = true :=
      List.any_eq_true.mpr ⟨a, ha, List.any_eq_true.mpr ⟨d, hd, hx⟩⟩
    rw [h] at hc
    exact Bool.false_ne_true hc

theorem strip_empties_all (l : List Entry) :
    (strip_empties l).all (fun e => !e.access.none) = true := by
  rw [List.all_eq_true]
  intro e he
  simp only [strip_empties] at he
  exact (List.mem_filter.mp he).2

theorem apply_diff_no_empty (s : CgroupDeviceAccess)
    (adds rems : List NonWildcardEntry) :
    no_empty_access (apply_diff s adds rems) = true := by
  simp only [no_empty_access, apply_diff, Bool.and_eq_true]
  exact ⟨strip_empties_all _, strip_empties_all _⟩

/-- Counterexample to C5 as stated: `configure` stores the caller-supplied
allow list verbatim, with no strip-empties, so an empty-access allow entry
survives an Ok-returning configure. -/
theorem configure_stores_empty_access :
    (DeviceManagerProcess.configure driverOk Store.empty "cg"
        [ent DeviceType.character (some 1) (some 2) false false false] []).1
      = DMResult.ok
    ∧ ∃ e ∈ ((DeviceManagerProcess.configure driverOk Store.empty "cg"
        [ent DeviceType.character (some 1) (some 2) false false false] []).2
          "cg").allow_list,
        e.access.none = true := by decide

/-- C5 amended: a store whose policies have no empty-access entries keeps
that property across `reconfigure` (whose `apply_diff` result is always
strip-emptied) and across `configure` whose caller-supplied lists contain
no empty-access entry; `configure` with an empty-access input violates it
(see the counterexample). -/
theorem no_empty_access_preserved (driver : Driver) (store : Store)
    (cgroup : String) (allow_list : List Entry)
    (nwdeny adds rems : List NonWildcardEntry)
    (hstore : ∀ c, no_empty_access (store c) = true) :
    ((∀ e ∈ allow_list, e.access.none = false) →
     (∀ e ∈ convert_to_entries nwdeny, e.access.none = false) →
     ∀ c, no_empty_access ((DeviceManagerProcess.configure driver store
        cgroup allow_list nwdeny).2 c) = true)
    ∧ (∀ c, no_empty_access ((DeviceManagerProcess.reconfigure driver store
        cgroup adds rems).2 c) = true) := by
  constructor
  · intro h1 h2 c
    cases hcond : (allow_list.any fun allow_entry =>
        (convert_to_entries nwdeny).any
          (fun deny_entry => deny_entry.encompasses allow_entry))
    · have hall := forall_of_cond_false allow_list (convert_to_entries nwdeny)
        (fun d a => d.encompasses a) hcond
      rw [configure_of_valid driver store cgroup allow_list nwdeny hall]
      by_cases hc : c = cgroup
      · subst hc
        simp only [Store.update, if_pos rfl]
        simp only [no_empty_access, Bool.and_eq_true, List.all_eq_true]
        constructor
        · intro e he; simp [h1 e he]
        · intro e he; simp [h2 e he]
      · simp [Store.update, hc, hstore c]
    · simp [DeviceManagerProcess.configure, hcond, hstore c]
  · intro c
    cases hcond : ((convert_to_entries adds).any fun addition =>
        (convert_to_entries rems).any
          (fun removal => removal.encompasses addition))
    · have hall := forall_of_cond_false (convert_to_entries adds)
        (convert_to_entries rems) (fun r a => r.encompasses a) hcond
      rw [reconfigure_of_valid driver store cgroup adds rems hall]
      by_cases hc : c = cgroup
      · subst hc
        simp [Store.update, apply_diff_no_empty]
      · simp [Store.update, hc, hstore c]
    · simp [DeviceManagerProcess.reconfigure, hcond, hstore c]

/-- Closed instance of `no_empty_access_preserved`: after a reconfigure on
the empty store, the touched cgroup's policy has no empty-access entry. -/
theorem no_empty_access_preserved_witness :
    no_empty_access ((DeviceManagerProcess.reconfigure driverOk Store.empty
        "cg" [nwent NWType.character 3 1 true false false] []).2 "cg")
      = true :=
  (no_empty_access_preserved driverOk Store.empty "cg" [] []
    [nwent NWType.character 3 1 true false false] [] (fun _ => rfl)).2 "cg"

/-- State of the store after the Ok-returning configure used by the C6
counterexample: allow `c 3:1 rw`, deny `c 3:1 w`. -/
def c6_store1 : Store :=
  (DeviceManagerProcess.configure driverOk Store.empty "cg"
    [ent DeviceType.character (some 3) (some 1) true true false]
    [nwent NWType.character 3 1 false true false]).2

/-- Counterexample to C6 as stated: starting from the empty store, an
Ok-returning configure (allow `c 3:1 rw`, deny `c 3:1 w`) followed by an
Ok-returning reconfigure removing `c 3:1 r` leaves a stored policy whose
deny entry `c 3:1 w` encompasses the shrunken allow entry `c 3:1 w`. -/
theorem deny_encompasses_allow_reachable :
    (DeviceManagerProcess.configure driverOk Store.empty "cg"
        [ent DeviceType.character (some 3) (some 1) true true false]
        [nwent NWType.character 3 1 false true false]).1 = DMResult.ok
    ∧ (DeviceManagerProcess.reconfigure driverOk c6_store1 "cg" []
        [nwent NWType.character 3 1 true false false]).1 = DMResult.ok
    ∧ ∃ d ∈ ((DeviceManagerProcess.reconfigure driverOk c6_store1 "cg" []
          [nwent NWType.character 3 1 true false false]).2 "cg").deny_list,
      ∃ a ∈ ((DeviceManagerProcess.reconfigure driverOk c6_store1 "cg" []
          [nwent NWType.character 3 1 true false false]).2 "cg").allow_list,
        d.encompasses a = true := by decide

/-- C6 amended: after an Ok-returning `configure`, no stored deny entry
encompasses any stored allow entry for that cgroup; `apply_diff` (hence
`reconfigure`) does not preserve this property in general, since a removal
can shrink an allow entry's access below an existing deny entry's. -/
theorem configure_ok_deny_not_encompass (driver : Driver) (store : Store)
    (cgroup : String) (allow_list : List Entry)
    (nwdeny : List NonWildcardEntry)
    (hok : (DeviceManagerProcess.configure driver store cgroup allow_list
      nwdeny).1 = DMResult.ok) :
    ∀ d ∈ ((DeviceManagerProcess.configure driver store cgroup allow_list
        nwdeny).2 cgroup).deny_list,
    ∀ a ∈ ((DeviceManagerProcess.configure driver store cgroup allow_list
        nwdeny).2 cgroup).allow_list,
      d.encompasses a = false := by
  cases hcond : (allow_list.any fun allow_entry =>
      (convert_to_entries nwdeny).any
        (fun deny_entry => deny_entry.encompasses allow_entry))
  · have hall := forall_of_cond_false allow_list (convert_to_entries nwdeny)
      (fun d a => d.encompasses a) hcond
    rw [configure_of_valid driver store cgroup allow_list nwdeny hall]
    simp only [Store.update, if_pos rfl]
    intro d hd a ha
    exact hall a ha d hd
  · simp [DeviceManagerProcess.configure, hcond] at hok

/-- Closed instance of `configure_ok_deny_not_encompass` at the concrete
configure call of the C6 counterexample: its stored deny entry does not
encompass its stored allow entry. -/
theorem configure_ok_deny_not_encompass_witness :
    Entry.encompasses (ent DeviceType.character (some 3) (some 1) false true false)
        (ent DeviceType.character (some 3) (some 1) true true false) = false :=
  configure_ok_deny_not_encompass driverOk Store.empty "cg"
    [ent DeviceType.character (some 3) (some 1) true true false]
    [nwent NWType.character 3 1 false true false] (by decide)
    (ent DeviceType.character (some 3) (some 1) false true false) (by decide)
    (ent DeviceType.character (some 3) (some 1) true true false) (by decide)
